import Mathlib

/- Shallow embedding of the table routing metadata store
   (src/meta-srv/src/table_routes.rs) of the greptimedb metadata layer,
   together with models of its external collaborators: the KV store port,
   the key encoders, the value codecs and the catalog metadata manager. -/

namespace TableRoutes

/-- Table name triple (common_meta::table_name::TableName). -/
structure TableName where
  catalog_name : String
  schema_name : String
  table_name : String
deriving DecidableEq

/-- Modelled from the spec: GlobalValue is the table catalog record, the
table id plus an opaque table-metadata handle
(common_meta::helper::TableGlobalValue is outside the sampled sources;
the spec describes it as "table id + table metadata handle"). -/
structure TableGlobalValue where
  table_id : Nat
  table_meta : String
deriving DecidableEq

/-- Cluster node identity (api::v1::meta::Peer: id + address), shape as
used by the sampled test code. -/
structure Peer where
  id : Nat
  addr : String
deriving DecidableEq

/-- Region descriptor (api::v1::meta::Region), shape as used by the
sampled test code: id, name, optional partition expression, attributes. -/
structure Region where
  id : Nat
  name : String
  partition : Option String
  attrs : List (String × String)
deriving DecidableEq

/-- Per-region placement (api::v1::meta::RegionRoute): the region, the
index of its leader peer and the indexes of its follower peers. -/
structure RegionRoute where
  region : Option Region
  leader_peer_index : Nat
  follower_peer_indexes : List Nat
deriving DecidableEq

/-- Table descriptor inside a route (api::v1::meta::Table), shape as used
by the sampled test code. -/
structure Table where
  id : Nat
  table_name : Option TableName
  table_schema : List Nat
deriving DecidableEq

/-- Route of one table (api::v1::meta::TableRoute). -/
structure TableRoute where
  table : Option Table
  region_routes : List RegionRoute
deriving DecidableEq

/-- Placement record stored under the route key
(api::v1::meta::TableRouteValue): the peers and the table route. -/
structure TableRouteValue where
  peers : List Peer
  table_route : Option TableRoute
deriving DecidableEq

/-- Table ident carrying the numeric table id
(table::metadata::TableIdent, as used via table_info.ident.table_id). -/
structure TableIdent where
  table_id : Nat
deriving DecidableEq

/-- Modelled from the spec: the per-table info record held by the catalog
metadata manager; the spec requires at minimum table_id, catalog_name,
schema_name and the table name (table::metadata::RawTableInfo is outside
the sampled sources; fetch_tables reads exactly these fields). -/
structure RawTableInfo where
  ident : TableIdent
  name : String
  catalog_name : String
  schema_name : String
deriving DecidableEq

/-- Wrapper stored by the table info manager
(common_meta::key::table_info::TableInfoValue). -/
structure TableInfoValue where
  table_info : RawTableInfo
deriving DecidableEq

/-- Name-based key of the catalog record
(common_meta::helper::TableGlobalKey). -/
structure TableGlobalKey where
  catalog_name : String
  schema_name : String
  table_name : String
deriving DecidableEq

/-- Id-based key of the route record (common_meta::key::TableRouteKey). -/
structure TableRouteKey where
  table_id : Nat
  catalog_name : String
  schema_name : String
  table_name : String
deriving DecidableEq

/-- Caller-side table reference (table::engine::TableReference). -/
structure TableReference where
  catalog : String
  schema : String
  table : String
deriving DecidableEq

/-- Modelled from the spec: the canonical encoded KV keys. The spec
requires both key grammars to be deterministic, injective and mutually
non-colliding reversible encodings of their components, so the encoded
byte strings are represented by this inductive of the components
themselves (TableGlobalKey::to_raw_key and TableRouteKey::to_string are
outside the sampled sources). -/
inductive RawKey where
  | globalKey (catalog_name schema_name table_name : String)
  | routeKey (table_id : Nat) (catalog_name schema_name table_name : String)
deriving DecidableEq

/-- Modelled from the spec: TableGlobalKey::to_raw_key, the canonical
reversible encoding of the name triple. -/
def TableGlobalKey.to_raw_key (k : TableGlobalKey) : RawKey :=
  .globalKey k.catalog_name k.schema_name k.table_name

/-- Modelled from the spec: TableRouteKey::to_string, the canonical
reversible encoding of the table id plus the name triple. -/
def TableRouteKey.toRawKey (k : TableRouteKey) : RawKey :=
  .routeKey k.table_id k.catalog_name k.schema_name k.table_name

/-- Modelled from the spec: the bytes held by the KV store. A stored
byte string is either the canonical encoding of a GlobalValue, the
canonical encoding of a RouteValue, or bytes that decode as neither
(corruption). The spec requires decode (encode v) = v for both codecs. -/
inductive StoredBytes where
  | encodedGlobal (v : TableGlobalValue)
  | encodedRoute (v : TableRouteValue)
  | corrupt (raw : List Nat)
deriving DecidableEq

/-- Modelled from the spec: TableGlobalValue::from_bytes, the GlobalValue
decoder; fails on anything that is not an encoded GlobalValue. -/
def TableGlobalValue.from_bytes : StoredBytes → Option TableGlobalValue
  | .encodedGlobal v => some v
  | _ => none

/-- Modelled from the spec: the RouteValue decoder (the TryFrom impl used
by kv.value().try_into()); fails on anything that is not an encoded
RouteValue. -/
def tableRouteValueFromBytes : StoredBytes → Option TableRouteValue
  | .encodedRoute v => some v
  | _ => none

/-- Error taxonomy of the routing store (crate::error of meta-srv, the
variants used by table_routes.rs). storeFailure stands for any error of
the underlying KV transport propagated by the question-mark operator. -/
inductive MetaError where
  | storeFailure
  | invalidCatalogValue
  | decodeTableRoute
  | tableRouteNotFound (key : RawKey)
  | tableMetadataManager
deriving DecidableEq

/-- KV put request (common_meta::rpc::store::PutRequest). -/
structure PutRequest where
  key : RawKey
  value : StoredBytes
  prev_kv : Bool
deriving DecidableEq

/-- Modelled from the spec: the KV store port. data is the per-key
contents; getFails and putFails are transport-failure oracles making the
"store unavailable" outcome of each call explicit. -/
structure KvStore where
  data : RawKey → Option StoredBytes
  getFails : RawKey → Bool
  putFails : RawKey → Bool

/-- Modelled from the spec: KV get — transport failure or the current
contents at the key. -/
def kvGet (s : KvStore) (k : RawKey) : Except MetaError (Option StoredBytes) :=
  if s.getFails k then .error .storeFailure else .ok (s.data k)

/-- Modelled from the spec: KV put — transport failure, or the store
with the key overwritten, together with the previous value when
prev_kv is requested. -/
def kvPut (s : KvStore) (req : PutRequest) :
    Except MetaError (KvStore × Option StoredBytes) :=
  if s.putFails req.key then .error .storeFailure
  else
    .ok ({ s with data := fun k => if k = req.key then some req.value else s.data k },
         if req.prev_kv then s.data req.key else none)

/-- get_table_global_value: single KV get under the global key; absence
is Ok none; present-but-undecodable bytes are InvalidCatalogValue. -/
def get_table_global_value (kv_store : KvStore) (key : TableGlobalKey) :
    Except MetaError (Option TableGlobalValue) :=
  match kvGet kv_store key.to_raw_key with
  | .error e => .error e
  | .ok none => .ok none
  | .ok (some bytes) =>
    match TableGlobalValue.from_bytes bytes with
    | some v => .ok (some v)
    | none => .error .invalidCatalogValue

/-- get_table_route_value: single KV get under the route key; absence is
the TableRouteNotFound error carrying the key; present-but-undecodable
bytes are DecodeTableRoute. -/
def get_table_route_value (kv_store : KvStore) (key : TableRouteKey) :
    Except MetaError TableRouteValue :=
  match kvGet kv_store key.toRawKey with
  | .error e => .error e
  | .ok none => .error (.tableRouteNotFound key.toRawKey)
  | .ok (some bytes) =>
    match tableRouteValueFromBytes bytes with
    | some v => .ok v
    | none => .error .decodeTableRoute

/-- The single put request issued by put_table_route_value. -/
def put_table_route_request (key : TableRouteKey) (value : TableRouteValue) :
    PutRequest :=
  { key := key.toRawKey, value := .encodedRoute value, prev_kv := false }

/-- put_table_route_value: serialize the value and issue one KV put with
prev_kv = false; the state change of the store is returned. -/
def put_table_route_value (kv_store : KvStore) (key : TableRouteKey)
    (value : TableRouteValue) : Except MetaError KvStore :=
  match kvPut kv_store (put_table_route_request key value) with
  | .error e => .error e
  | .ok (s, _) => .ok s

/-- table_route_key: build the route key from a table id and the global
key components. -/
def table_route_key (table_id : Nat) (t : TableGlobalKey) : TableRouteKey :=
  { table_id := table_id
    catalog_name := t.catalog_name
    schema_name := t.schema_name
    table_name := t.table_name }

/-- fetch_table: resolve the global value under the name triple; on
absence the result is none; on presence fetch the route value under the
route key derived from the resolved table id and return the pair. -/
def fetch_table (kv_store : KvStore) (table_ref : TableReference) :
    Except MetaError (Option (TableGlobalValue × TableRouteValue)) :=
  let tgk : TableGlobalKey :=
    { catalog_name := table_ref.catalog
      schema_name := table_ref.schema
      table_name := table_ref.table }
  match get_table_global_value kv_store tgk with
  | .error e => .error e
  | .ok none => .ok none
  | .ok (some tgv) =>
    match get_table_route_value kv_store (table_route_key tgv.table_id tgk) with
    | .error e => .error e
    | .ok trv => .ok (some (tgv, trv))

/-- Modelled from the spec: the catalog metadata manager port; get_old
resolves a table name to its info, with absence distinct from failure
(the error type of the manager itself is opaque here). -/
structure TableMetadataManager where
  get_old : TableName → Except Unit (Option TableInfoValue)

/-- The slice of metasrv::Context used by fetch_tables. -/
structure Context where
  kv_store : KvStore
  table_metadata_manager : TableMetadataManager

/-- The route key fetch_tables builds for a resolved TableInfoValue:
its table id together with the catalog, schema and table names recorded
inside the table info. -/
def route_key_of_info (tgv : TableInfoValue) : TableRouteKey :=
  { table_id := tgv.table_info.ident.table_id
    catalog_name := tgv.table_info.catalog_name
    schema_name := tgv.table_info.schema_name
    table_name := tgv.table_info.name }

/-- fetch_tables: for each name in input order, resolve its info through
the catalog metadata manager — a manager failure is wrapped as
TableMetadataManager and aborts, an absent info is skipped — then fetch
the route value under the key built from the info; any route error
aborts; surviving pairs are accumulated in input order. -/
def fetch_tables (ctx : Context) :
    List TableName → Except MetaError (List (TableInfoValue × TableRouteValue))
  | [] => .ok []
  | table_name :: rest =>
    match ctx.table_metadata_manager.get_old table_name with
    | .error _ => .error .tableMetadataManager
    | .ok none => fetch_tables ctx rest
    | .ok (some tgv) =>
      match get_table_route_value ctx.kv_store (route_key_of_info tgv) with
      | .error e => .error e
      | .ok trv =>
        match fetch_tables ctx rest with
        | .error e => .error e
        | .ok tables => .ok ((tgv, trv) :: tables)

/-- Reference step following the words of the spec for the batched
fetch: the per-name outcome in a batch that succeeds as a whole — none
for a skipped name (absent info), otherwise the (info, route) pair. -/
def fetch_tables_spec_step (ctx : Context) (n : TableName) :
    Option (TableInfoValue × TableRouteValue) :=
  match ctx.table_metadata_manager.get_old n with
  | .ok (some tgv) =>
    match get_table_route_value ctx.kv_store (route_key_of_info tgv) with
    | .ok trv => some (tgv, trv)
    | .error _ => none
  | _ => none

/- Concrete fixtures used by the witnesses. -/

/-- A KV store holding the given entries, with a transport that never
fails. -/
def storeOf (entries : List (RawKey × StoredBytes)) : KvStore :=
  { data := fun k => (entries.find? (fun p => p.1 = k)).map (fun p => p.2)
    getFails := fun _ => false
    putFails := fun _ => false }

/-- The empty, always-available KV store. -/
def emptyStore : KvStore := storeOf []

/-- Route key of the spec scenario: table id 7, names c.s.t. -/
def key7 : TableRouteKey :=
  { table_id := 7, catalog_name := "c", schema_name := "s", table_name := "t" }

/-- Route key with table id 8, never written. -/
def key8 : TableRouteKey :=
  { table_id := 8, catalog_name := "c", schema_name := "s", table_name := "t" }

/-- Route value of the spec scenario: peers n1 n2 n3, one region with id
1, leader index 0, no followers. -/
def val7 : TableRouteValue :=
  { peers := [{ id := 1, addr := "n1" }, { id := 2, addr := "n2" },
              { id := 3, addr := "n3" }]
    table_route := some
      { table := none
        region_routes := [{ region := some { id := 1, name := "", partition := none, attrs := [] }
                            leader_peer_index := 0
                            follower_peer_indexes := [] }] } }

theorem fetch_tables_append (ctx : Context) (l1 l2 : List TableName) :
    fetch_tables ctx (l1 ++ l2) =
      match fetch_tables ctx l1 with
      | .error e => .error e
      | .ok r1 =>
        match fetch_tables ctx l2 with
        | .error e => .error e
        | .ok r2 => .ok (r1 ++ r2) := by
  induction l1 with
  | nil =>
    simp only [List.nil_append, fetch_tables]
    cases fetch_tables ctx l2 <;> simp
  | cons n rest ih =>
    cases h1 : ctx.table_metadata_manager.get_old n with
    | error e => simp only [List.cons_append, fetch_tables, h1]
    | ok o =>
      cases o with
      | none =>
        simp only [List.cons_append, fetch_tables, h1]
        exact ih
      | some tgv =>
        cases h2 : get_table_route_value ctx.kv_store (route_key_of_info tgv) with
        | error e => simp only [List.cons_append, fetch_tables, h1, h2]
        | ok trv =>
          simp only [List.cons_append, fetch_tables, h1, h2, List.append_eq]
          rw [ih]
          cases hx : fetch_tables ctx rest <;>
            cases hy : fetch_tables ctx l2 <;> simp

/-- Claim C1: fetch_table resolves the global value first; an absent
global value yields none with no route fetch (the result is none for
every store in which the global key reads back empty, whatever the route
keys hold); a present global value makes the result exactly the route
fetch for the resolved table id, mapped into the pair — in particular a
missing route surfaces as TableRouteNotFound, not as none. -/
theorem C1_fetch_table_composition (s : KvStore) (table_ref : TableReference) :
    (get_table_global_value s
        { catalog_name := table_ref.catalog, schema_name := table_ref.schema,
          table_name := table_ref.table } = .ok none →
      fetch_table s table_ref = .ok none)
    ∧ (∀ tgv : TableGlobalValue,
        get_table_global_value s
          { catalog_name := table_ref.catalog, schema_name := table_ref.schema,
            table_name := table_ref.table } = .ok (some tgv) →
        (fetch_table s table_ref =
          Except.map (fun trv => some (tgv, trv))
            (get_table_route_value s (table_route_key tgv.table_id
              { catalog_name := table_ref.catalog, schema_name := table_ref.schema,
                table_name := table_ref.table })))
        ∧ (kvGet s (table_route_key tgv.table_id
              { catalog_name := table_ref.catalog, schema_name := table_ref.schema,
                table_name := table_ref.table }).toRawKey = .ok none →
            fetch_table s table_ref =
              .error (.tableRouteNotFound (table_route_key tgv.table_id
                { catalog_name := table_ref.catalog, schema_name := table_ref.schema,
                  table_name := table_ref.table }).toRawKey))) := by
  constructor
  · intro h
    simp only [fetch_table, h]
  · intro tgv h
    constructor
    · cases hr : get_table_route_value s (table_route_key tgv.table_id
        { catalog_name := table_ref.catalog, schema_name := table_ref.schema,
          table_name := table_ref.table }) with
      | error e => simp only [fetch_table, h, hr, Except.map]
      | ok trv => simp only [fetch_table, h, hr, Except.map]
    · intro hroute
      simp only [fetch_table, h, get_table_route_value, hroute]

/-- Claim C1 witness: a store where only the global key for c.s.t is
written (with table id 7) and no route exists; the global read yields
the value and fetch_table propagates TableRouteNotFound. -/
def storeC1 : KvStore :=
  storeOf [(RawKey.globalKey "c" "s" "t",
            .encodedGlobal { table_id := 7, table_meta := "m" })]

theorem C1_fetch_table_composition_witness :
    (get_table_global_value emptyStore
        { catalog_name := "c", schema_name := "s", table_name := "t" } = .ok none
      ∧ fetch_table emptyStore { catalog := "c", schema := "s", table := "t" } = .ok none)
    ∧ fetch_table storeC1 { catalog := "c", schema := "s", table := "t" } =
        .error (.tableRouteNotFound (RawKey.routeKey 7 "c" "s" "t")) := by
  refine ⟨⟨rfl, ?_⟩, ?_⟩
  · exact (C1_fetch_table_composition emptyStore
      { catalog := "c", schema := "s", table := "t" }).1 rfl
  · exact ((C1_fetch_table_composition storeC1
      { catalog := "c", schema := "s", table := "t" }).2
      { table_id := 7, table_meta := "m" } rfl).2 rfl

/-- Claim C2: on a key the store reports absent, get_table_global_value
returns ok none, while get_table_route_value fails with
TableRouteNotFound carrying that key. -/
theorem C2_not_found_distinction (s : KvStore) (gk : TableGlobalKey)
    (rk : TableRouteKey) :
    (kvGet s gk.to_raw_key = .ok none → get_table_global_value s gk = .ok none)
    ∧ (kvGet s rk.toRawKey = .ok none →
        get_table_route_value s rk = .error (.tableRouteNotFound rk.toRawKey)) := by
  constructor
  · intro h
    simp only [get_table_global_value, h]
  · intro h
    simp only [get_table_route_value, h]

/-- Claim C2 witness: the empty store at the c.s.t keys. -/
theorem C2_not_found_distinction_witness :
    get_table_global_value emptyStore
        { catalog_name := "c", schema_name := "s", table_name := "t" } = .ok none
    ∧ get_table_route_value emptyStore key7 =
        .error (.tableRouteNotFound key7.toRawKey) := by
  exact ⟨(C2_not_found_distinction emptyStore
      { catalog_name := "c", schema_name := "s", table_name := "t" } key7).1 rfl,
    (C2_not_found_distinction emptyStore
      { catalog_name := "c", schema_name := "s", table_name := "t" } key7).2 rfl⟩

/-- Claim C7: stored bytes that fail to decode surface as the dedicated
errors — InvalidCatalogValue on the global path, DecodeTableRoute on the
route path — never a silently substituted default. -/
theorem C7_decode_failures (s : KvStore) (gk : TableGlobalKey)
    (rk : TableRouteKey) (bytes : StoredBytes) :
    (kvGet s gk.to_raw_key = .ok (some bytes) →
      TableGlobalValue.from_bytes bytes = none →
      get_table_global_value s gk = .error .invalidCatalogValue)
    ∧ (kvGet s rk.toRawKey = .ok (some bytes) →
        tableRouteValueFromBytes bytes = none →
        get_table_route_value s rk = .error .decodeTableRoute) := by
  constructor
  · intro h hdec
    simp only [get_table_global_value, h, hdec]
  · intro h hdec
    simp only [get_table_route_value, h, hdec]

/-- Claim C7 witness: a store holding corrupt bytes under both the
global key c.s.t and the route key (7, c.s.t). -/
def storeC7 : KvStore :=
  storeOf [(RawKey.globalKey "c" "s" "t", .corrupt [0]),
           (RawKey.routeKey 7 "c" "s" "t", .corrupt [1])]

theorem C7_decode_failures_witness :
    get_table_global_value storeC7
        { catalog_name := "c", schema_name := "s", table_name := "t" } =
      .error .invalidCatalogValue
    ∧ get_table_route_value storeC7 key7 = .error .decodeTableRoute := by
  exact ⟨(C7_decode_failures storeC7
      { catalog_name := "c", schema_name := "s", table_name := "t" } key7
      (.corrupt [0])).1 rfl rfl,
    (C7_decode_failures storeC7
      { catalog_name := "c", schema_name := "s", table_name := "t" } key7
      (.corrupt [1])).2 rfl rfl⟩

/-- Claim C3: a batch that succeeds as a whole returns exactly the
per-name outcomes in input order with the skipped names (absent info)
dropped, hence at most one entry per input name; and a name whose info
is absent can be removed from anywhere in the input without changing
the result of the batch. -/
theorem C3_fetch_tables_skip_semantics (ctx : Context) (names : List TableName) :
    (∀ res, fetch_tables ctx names = .ok res →
      res = names.filterMap (fetch_tables_spec_step ctx)
        ∧ res.length ≤ names.length)
    ∧ (∀ pre post skipped, ctx.table_metadata_manager.get_old skipped = .ok none →
        fetch_tables ctx (pre ++ skipped :: post) = fetch_tables ctx (pre ++ post)) := by
  constructor
  · induction names with
    | nil =>
      intro res h
      simp only [fetch_tables, Except.ok.injEq] at h
      subst h
      simp
    | cons n rest ih =>
      intro res h
      cases h1 : ctx.table_metadata_manager.get_old n with
      | error e =>
        rw [show fetch_tables ctx (n :: rest) =
            Except.error MetaError.tableMetadataManager by
          simp only [fetch_tables, h1]] at h
        simp at h
      | ok o =>
        cases o with
        | none =>
          simp only [fetch_tables, h1] at h
          obtain ⟨he, hl⟩ := ih res h
          refine ⟨?_, Nat.le_succ_of_le hl⟩
          rw [he, List.filterMap_cons]
          simp only [fetch_tables_spec_step, h1]
        | some tgv =>
          cases h2 : get_table_route_value ctx.kv_store (route_key_of_info tgv) with
          | error e =>
            simp only [fetch_tables, h1, h2] at h
            simp at h
          | ok trv =>
            simp only [fetch_tables, h1, h2] at h
            cases h3 : fetch_tables ctx rest with
            | error e =>
              rw [h3] at h
              simp at h
            | ok tl =>
              rw [h3] at h
              simp only [Except.ok.injEq] at h
              obtain ⟨he, hl⟩ := ih tl h3
              subst h
              refine ⟨?_, by simpa using Nat.succ_le_succ hl⟩
              rw [List.filterMap_cons]
              simp only [fetch_tables_spec_step, h1, h2, he]
  · intro pre post skipped hskip
    have hmid : fetch_tables ctx (skipped :: post) = fetch_tables ctx post := by
      simp only [fetch_tables, hskip]
    rw [fetch_tables_append, fetch_tables_append, hmid]

/- Fixtures for the batched-fetch witnesses: names a, b, c under
catalog c and schema s; a and c resolve, b does not. -/

/-- Table name a. -/
def nameA : TableName :=
  { catalog_name := "c", schema_name := "s", table_name := "a" }

/-- Table name b (no info recorded). -/
def nameB : TableName :=
  { catalog_name := "c", schema_name := "s", table_name := "b" }

/-- Table name c. -/
def nameC : TableName :=
  { catalog_name := "c", schema_name := "s", table_name := "d" }

/-- Info of table a: id 1. -/
def infoA : TableInfoValue :=
  { table_info := { ident := { table_id := 1 }, name := "a",
                    catalog_name := "c", schema_name := "s" } }

/-- Info of table b: id 2 (used by the abort witness). -/
def infoB : TableInfoValue :=
  { table_info := { ident := { table_id := 2 }, name := "b",
                    catalog_name := "c", schema_name := "s" } }

/-- Info of table c: id 3. -/
def infoC : TableInfoValue :=
  { table_info := { ident := { table_id := 3 }, name := "d",
                    catalog_name := "c", schema_name := "s" } }

/-- Route value of table a. -/
def valA : TableRouteValue :=
  { peers := [{ id := 1, addr := "n1" }], table_route := none }

/-- Route value of table c. -/
def valC : TableRouteValue :=
  { peers := [{ id := 2, addr := "n2" }], table_route := none }

/-- A store holding routes for tables a (id 1) and c (id 3) only. -/
def storeAC : KvStore :=
  storeOf [(RawKey.routeKey 1 "c" "s" "a", .encodedRoute valA),
           (RawKey.routeKey 3 "c" "s" "d", .encodedRoute valC)]

/-- Manager resolving a and c, with no info for anything else. -/
def mgrABC : TableMetadataManager :=
  { get_old := fun n =>
      if n = nameA then .ok (some infoA)
      else if n = nameC then .ok (some infoC)
      else .ok none }

/-- Context for the skip witness. -/
def ctxABC : Context :=
  { kv_store := storeAC, table_metadata_manager := mgrABC }

/-- Claim C3 witness: the spec scenario — input a, b, c where b has no
info yields the pairs for a and c in order, matches the reference
filterMap, and removing b from the input changes nothing. -/
theorem C3_fetch_tables_skip_semantics_witness :
    fetch_tables ctxABC [nameA, nameB, nameC] = .ok [(infoA, valA), (infoC, valC)]
    ∧ [(infoA, valA), (infoC, valC)] =
        List.filterMap (fetch_tables_spec_step ctxABC) [nameA, nameB, nameC]
    ∧ ([(infoA, valA), (infoC, valC)] : List (TableInfoValue × TableRouteValue)).length ≤
        [nameA, nameB, nameC].length
    ∧ fetch_tables ctxABC ([nameA] ++ nameB :: [nameC]) =
        fetch_tables ctxABC ([nameA] ++ [nameC]) := by
  refine ⟨rfl, ?_, ?_, ?_⟩
  · exact ((C3_fetch_tables_skip_semantics ctxABC [nameA, nameB, nameC]).1
      [(infoA, valA), (infoC, valC)] rfl).1
  · exact ((C3_fetch_tables_skip_semantics ctxABC [nameA, nameB, nameC]).1
      [(infoA, valA), (infoC, valC)] rfl).2
  · exact (C3_fetch_tables_skip_semantics ctxABC [nameA, nameB, nameC]).2
      [nameA] [nameC] nameB rfl

/-- Claim C4: once some name in the batch resolves to an info whose
route fetch fails, the whole batch fails with that very error, even
when every earlier name already produced a result. -/
theorem C4_fetch_tables_abort_on_route_error (ctx : Context)
    (pre post : List TableName) (bad : TableName) (tgv : TableInfoValue)
    (e : MetaError) (r : List (TableInfoValue × TableRouteValue)) :
    fetch_tables ctx pre = .ok r →
    ctx.table_metadata_manager.get_old bad = .ok (some tgv) →
    get_table_route_value ctx.kv_store (route_key_of_info tgv) = .error e →
    fetch_tables ctx (pre ++ bad :: post) = .error e := by
  intro hpre hbad herr
  rw [fetch_tables_append, hpre]
  simp only [fetch_tables, hbad, herr]

/-- Manager resolving both a and b (b to id 2, which has no route in
storeAC). -/
def mgrAB : TableMetadataManager :=
  { get_old := fun n =>
      if n = nameA then .ok (some infoA)
      else if n = nameB then .ok (some infoB)
      else .ok none }

/-- Context for the abort witness. -/
def ctxAB : Context :=
  { kv_store := storeAC, table_metadata_manager := mgrAB }

/-- Claim C4 witness: the spec scenario — input a, b where both resolve
but the route of b (id 2) is absent; the batch fails with
TableRouteNotFound and the pair already fetched for a is not returned. -/
theorem C4_fetch_tables_abort_on_route_error_witness :
    fetch_tables ctxAB ([nameA] ++ nameB :: []) =
      .error (.tableRouteNotFound (RawKey.routeKey 2 "c" "s" "b")) := by
  exact C4_fetch_tables_abort_on_route_error ctxAB [nameA] [] nameB infoB
    (.tableRouteNotFound (RawKey.routeKey 2 "c" "s" "b")) [(infoA, valA)]
    rfl rfl rfl

/-- Claim C9: a failing info lookup is not skipped: it is wrapped as the
TableMetadataManager error and aborts the batch, discarding every result
already produced for earlier names. -/
theorem C9_fetch_tables_abort_on_manager_error (ctx : Context)
    (pre post : List TableName) (bad : TableName)
    (r : List (TableInfoValue × TableRouteValue)) :
    fetch_tables ctx pre = .ok r →
    ctx.table_metadata_manager.get_old bad = .error () →
    fetch_tables ctx (pre ++ bad :: post) = .error .tableMetadataManager := by
  intro hpre hbad
  rw [fetch_tables_append, hpre]
  simp only [fetch_tables, hbad]

/-- Table name e, on which the manager of the C9 witness fails. -/
def nameE : TableName :=
  { catalog_name := "c", schema_name := "s", table_name := "e" }

/-- Manager resolving a and failing on e. -/
def mgrErr : TableMetadataManager :=
  { get_old := fun n =>
      if n = nameA then .ok (some infoA)
      else if n = nameE then .error ()
      else .ok none }

/-- Context for the manager-error witness. -/
def ctxErr : Context :=
  { kv_store := storeAC, table_metadata_manager := mgrErr }

/-- Claim C9 witness: input a, e where a succeeds and the lookup of e
fails; the batch fails with TableMetadataManager and the pair of a is
discarded. -/
theorem C9_fetch_tables_abort_on_manager_error_witness :
    fetch_tables ctxErr ([nameA] ++ nameE :: []) = .error .tableMetadataManager := by
  exact C9_fetch_tables_abort_on_manager_error ctxErr [nameA] [] nameE
    [(infoA, valA)] rfl rfl

/-- Claim C10: for a name whose info resolves, the route fetched by the
batch is the one under the key built from the resolved info — its table
id and the catalog, schema and table names recorded inside it — and the
outcome therefore does not depend on the input name beyond which info it
resolves to: any two names resolving to the same info give the same
batch result. -/
theorem C10_route_key_built_from_info (ctx : Context) (n : TableName)
    (rest : List TableName) (tgv : TableInfoValue) :
    ctx.table_metadata_manager.get_old n = .ok (some tgv) →
    (fetch_tables ctx (n :: rest) =
      Except.bind (get_table_route_value ctx.kv_store (route_key_of_info tgv))
        (fun trv => Except.map (fun tables => (tgv, trv) :: tables)
          (fetch_tables ctx rest)))
    ∧ (∀ n2, ctx.table_metadata_manager.get_old n2 = .ok (some tgv) →
        fetch_tables ctx (n2 :: rest) = fetch_tables ctx (n :: rest)) := by
  intro h
  constructor
  · cases h2 : get_table_route_value ctx.kv_store (route_key_of_info tgv) with
    | error e => simp only [fetch_tables, h, h2, Except.bind]
    | ok trv =>
      cases h3 : fetch_tables ctx rest with
      | error e => simp only [fetch_tables, h, h2, h3, Except.bind, Except.map]
      | ok tl => simp only [fetch_tables, h, h2, h3, Except.bind, Except.map]
  · intro n2 h2
    simp only [fetch_tables, h, h2]

/-- Input name whose components disagree with the info it resolves to. -/
def nameX : TableName :=
  { catalog_name := "cx", schema_name := "sx", table_name := "x" }

/-- A second, different input name resolving to the same info. -/
def nameY : TableName :=
  { catalog_name := "cy", schema_name := "sy", table_name := "y" }

/-- The resolved info: id 9 under catalog c2, schema s2, table t2 —
none of which appear in nameX or nameY. -/
def infoX : TableInfoValue :=
  { table_info := { ident := { table_id := 9 }, name := "t2",
                    catalog_name := "c2", schema_name := "s2" } }

/-- Store holding one route under the info-derived key (9, c2.s2.t2)
and a different decoy route under the input-name-derived key
(9, cx.sx.x). -/
def storeX : KvStore :=
  storeOf [(RawKey.routeKey 9 "c2" "s2" "t2", .encodedRoute valC),
           (RawKey.routeKey 9 "cx" "sx" "x", .encodedRoute valA)]

/-- Manager resolving both disagreeing names to the same info. -/
def mgrX : TableMetadataManager :=
  { get_old := fun n =>
      if n = nameX then .ok (some infoX)
      else if n = nameY then .ok (some infoX)
      else .ok none }

/-- Context for the C10 witness. -/
def ctxX : Context :=
  { kv_store := storeX, table_metadata_manager := mgrX }

/-- Claim C10 witness: the input name cx.sx.x resolves to info
(9, c2.s2.t2); the batch returns the route stored under the info-derived
key (valC), not the decoy stored under the input-name-derived key, and
the unrelated name cy.sy.y resolving to the same info gives the same
result. -/
theorem C10_route_key_built_from_info_witness :
    fetch_tables ctxX [nameX] =
      Except.bind (get_table_route_value ctxX.kv_store (route_key_of_info infoX))
        (fun trv => Except.map (fun tables => (infoX, trv) :: tables)
          (fetch_tables ctxX []))
    ∧ fetch_tables ctxX [nameY] = fetch_tables ctxX [nameX]
    ∧ fetch_tables ctxX [nameX] = .ok [(infoX, valC)] := by
  refine ⟨(C10_route_key_built_from_info ctxX nameX [] infoX rfl).1, ?_, rfl⟩
  exact (C10_route_key_built_from_info ctxX nameX [] infoX rfl).2 nameY rfl

/-- Claim C5: writing a route value and reading it back under the same
key (with a working transport) yields an equal value, while reading a
route key that holds nothing fails with TableRouteNotFound for that key,
even right after the write to the other key. -/
theorem C5_put_get_round_trip (s : KvStore) (key key2 : TableRouteKey)
    (value : TableRouteValue) :
    s.putFails key.toRawKey = false →
    ((s.getFails key.toRawKey = false →
      Except.bind (put_table_route_value s key value)
        (fun s2 => get_table_route_value s2 key) = .ok value)
    ∧ (key2.toRawKey ≠ key.toRawKey → kvGet s key2.toRawKey = .ok none →
        Except.bind (put_table_route_value s key value)
          (fun s2 => get_table_route_value s2 key2) =
          .error (.tableRouteNotFound key2.toRawKey))) := by
  intro hput
  have hstep : put_table_route_value s key value =
      .ok { s with data := fun k =>
              if k = key.toRawKey then some (.encodedRoute value) else s.data k } := by
    simp [put_table_route_value, kvPut, put_table_route_request, hput]
  constructor
  · intro hget
    rw [hstep]
    simp [Except.bind, get_table_route_value, kvGet, hget, tableRouteValueFromBytes]
  · intro hne hnone
    have hpair : s.getFails key2.toRawKey = false ∧ s.data key2.toRawKey = none := by
      simp only [kvGet] at hnone
      by_cases hgf : s.getFails key2.toRawKey = true
      · rw [if_pos hgf] at hnone
        simp at hnone
      · rw [if_neg hgf] at hnone
        simp only [Except.ok.injEq] at hnone
        exact ⟨by simpa using hgf, hnone⟩
    rw [hstep]
    simp [Except.bind, get_table_route_value, kvGet, hpair.1, hpair.2, hne]

/-- Claim C5 witness: the spec scenario — the route of table id 7 under
c.s.t with peers n1 n2 n3, one region with leader index 0, written to
the empty store, reads back equal; table id 8 was never written and the
read fails with TableRouteNotFound. -/
theorem C5_put_get_round_trip_witness :
    Except.bind (put_table_route_value emptyStore key7 val7)
        (fun s2 => get_table_route_value s2 key7) = .ok val7
    ∧ Except.bind (put_table_route_value emptyStore key7 val7)
        (fun s2 => get_table_route_value s2 key8) =
        .error (.tableRouteNotFound key8.toRawKey) := by
  exact ⟨(C5_put_get_round_trip emptyStore key7 key8 val7 rfl).1 rfl,
    (C5_put_get_round_trip emptyStore key7 key8 val7 rfl).2 (by decide) rfl⟩

/-- Claim C6: put_table_route_value issues the single put request built
from the key and the serialized value, with prev_kv false; with a
working transport it succeeds and its whole effect is the one-key
overwrite, for every value; it fails exactly when the transport put
fails, never because of the value. -/
theorem C6_put_single_request (s : KvStore) (key : TableRouteKey)
    (value : TableRouteValue) :
    (put_table_route_request key value).prev_kv = false
    ∧ (s.putFails key.toRawKey = false →
        put_table_route_value s key value =
          .ok { data := fun k =>
                  if k = key.toRawKey then some (.encodedRoute value) else s.data k,
                getFails := s.getFails, putFails := s.putFails })
    ∧ (s.putFails key.toRawKey = true →
        put_table_route_value s key value = .error .storeFailure) := by
  refine ⟨rfl, ?_, ?_⟩
  · intro h
    simp [put_table_route_value, kvPut, put_table_route_request, h]
  · intro h
    simp [put_table_route_value, kvPut, put_table_route_request, h]

/-- A store whose put transport always fails. -/
def failPutStore : KvStore :=
  { data := fun _ => none, getFails := fun _ => false, putFails := fun _ => true }

/-- Claim C6 witness: on the empty store the write of val7 under key7
succeeds with the one-key overwrite; on a store whose transport rejects
puts the same write fails with the store failure. -/
theorem C6_put_single_request_witness :
    (put_table_route_request key7 val7).prev_kv = false
    ∧ put_table_route_value emptyStore key7 val7 =
        .ok { data := fun k =>
                if k = key7.toRawKey then some (.encodedRoute val7)
                else emptyStore.data k,
              getFails := emptyStore.getFails, putFails := emptyStore.putFails }
    ∧ put_table_route_value failPutStore key7 val7 = .error .storeFailure := by
  exact ⟨(C6_put_single_request emptyStore key7 val7).1,
    (C6_put_single_request emptyStore key7 val7).2.1 rfl,
    (C6_put_single_request failPutStore key7 val7).2.2 rfl⟩

/-- Claim C8: writing the same route value twice under the same key
leaves the store in the very state reached by writing it once. -/
theorem C8_put_route_value_idempotent (s : KvStore) (key : TableRouteKey)
    (value : TableRouteValue) :
    Except.bind (put_table_route_value s key value)
      (fun s2 => put_table_route_value s2 key value) =
    put_table_route_value s key value := by
  by_cases h : s.putFails key.toRawKey = true
  · simp [put_table_route_value, kvPut, put_table_route_request, h, Except.bind]
  · have h2 : s.putFails key.toRawKey = false := by simpa using h
    simp only [put_table_route_value, kvPut, put_table_route_request, h2,
      Bool.false_eq_true, if_false, Except.bind]
    congr 1
    congr 1
    funext k
    by_cases hk : k = key.toRawKey <;> simp [hk]

end TableRoutes
